import Mathlib

/-!
Verification of the Oneiroi DSP core against its specification.

The C++ sources are shallowly embedded in Lean: single-precision floats are
modelled as exact rationals (`ℚ`), mutable objects become explicit state
passing, and member functions become pure state transformers.  Device-wide
constants that live in `Commons.h` (which is not part of the sources at hand)
are modelled as explicit parameters or, where the specification pins them
down, as spec-modelled definitions whose doc comments say so.
-/

namespace Oneiroi

/-- `Max` from `Commons.h`, reproduced verbatim in the repository's unit-test
file: `(a > b) ? a : b`. -/
def Max (a b : ℚ) : ℚ := if a > b then a else b

/-- `Min` from `Commons.h`, reproduced verbatim in the repository's unit-test
file: `(a < b) ? a : b`. -/
def Min (a b : ℚ) : ℚ := if a < b then a else b

/-- `Clamp` from `Commons.h` (unit-test file): `Min(Max(in, min), max)`. -/
def Clamp (x mn mx : ℚ) : ℚ := Min (Max x mn) mx

/-- `Map` from `Commons.h` (unit-test file):
`k = fabs(bMax-bMin)/fabs(aMax-aMin) * (bMax > bMin ? 1 : -1); bMin + k*(value-aMin)`. -/
def Map (value aMin aMax bMin bMax : ℚ) : ℚ :=
  bMin + (|bMax - bMin| / |aMax - aMin| * (if bMax > bMin then 1 else -1)) * (value - aMin)

/-- Modelled from the spec: `CheapEqualPowerCrossFade` is defined in
`Commons.h`, which is absent from the sources at hand.  The spec describes it
as an equal-power crossfade between `a` (at `pos = 0`) and `b` (at `pos = 1`).
We model it with the standard cheap equal-power approximation
`a*(1-pos)*(1+pos) + b*pos*(2-pos)`, which returns exactly `a` at `pos = 0`
and exactly `b` at `pos = 1` and boosts the midpoint as an equal-power blend
does. -/
def CheapEqualPowerCrossFade (a b pos : ℚ) : ℚ :=
  a * (1 - pos) * (1 + pos) + b * pos * (2 - pos)

theorem cheapXF_at_one (a b : ℚ) : CheapEqualPowerCrossFade a b 1 = b := by
  simp only [CheapEqualPowerCrossFade]; ring

theorem cheapXF_at_zero (a b : ℚ) : CheapEqualPowerCrossFade a b 0 = a := by
  simp only [CheapEqualPowerCrossFade]; ring

/-! ## ParameterInterpolator (`ParameterInterpolator.h`)

The class holds `float* state_`, `float value_`, `float increment_`.
The pointer is modelled by `hasState : Bool` (whether `state_ != nullptr`);
the pointed-to slot is passed around explicitly where it matters (only the
constructor reads it and the destructor writes it). -/

structure ParameterInterpolator where
  hasState : Bool
  value_ : ℚ
  increment_ : ℚ
deriving DecidableEq

/-- Default constructor: `state_(nullptr), value_(0.f), increment_(0.f)`. -/
def ParameterInterpolator.defaultCtor : ParameterInterpolator :=
  ⟨false, 0, 0⟩

/-- Size-based constructor (`BY_SIZE` tag).  `state` is the pointed-to slot
(`none` models a null pointer):
`value_ = (state != nullptr) ? *state : 0.f;`
`increment_ = (state != nullptr && size > 0) ? (new_value - *state) / size : 0.f;` -/
def ParameterInterpolator.bySize (state : Option ℚ) (new_value : ℚ) (size : ℕ) :
    ParameterInterpolator where
  hasState := state.isSome
  value_ := match state with
    | some s => s
    | none => 0
  increment_ := match state with
    | some s => if 0 < size then (new_value - s) / (size : ℚ) else 0
    | none => 0

/-- Step-based constructor (`BY_STEP` tag):
`increment_ = (state != nullptr) ? (new_value - *state) * step : 0.f;` -/
def ParameterInterpolator.byStep (state : Option ℚ) (new_value step : ℚ) :
    ParameterInterpolator where
  hasState := state.isSome
  value_ := match state with
    | some s => s
    | none => 0
  increment_ := match state with
    | some s => (new_value - s) * step
    | none => 0

/-- `Next()`: `value_ += increment_; return value_;` — returns the updated
object and the returned sample. -/
def ParameterInterpolator.Next (p : ParameterInterpolator) : ParameterInterpolator × ℚ :=
  let v := p.value_ + p.increment_
  ({ p with value_ := v }, v)

/-- `subsample(t)`: `value_ + increment_ * t`. -/
def ParameterInterpolator.subsample (p : ParameterInterpolator) (t : ℚ) : ℚ :=
  p.value_ + p.increment_ * t

/-- Destructor: `if (state_ != nullptr) { *state_ = value_; }`.  Takes the
current content of the pointed-to slot and returns its content after the
destructor ran (unchanged when the pointer is null). -/
def ParameterInterpolator.destruct (p : ParameterInterpolator) (slot : ℚ) : ℚ :=
  if p.hasState then p.value_ else slot

/-- State after one `Next()` call (discarding the returned sample). -/
def ParameterInterpolator.nextStep (p : ParameterInterpolator) : ParameterInterpolator :=
  (p.Next).1

/-- State after `k` successive `Next()` calls. -/
def ParameterInterpolator.afterCalls (p : ParameterInterpolator) (k : ℕ) :
    ParameterInterpolator :=
  ParameterInterpolator.nextStep^[k] p

/-- Value returned by the `k`-th `Next()` call (1-indexed): since `Next`
returns the freshly updated `value_`, this is the value held after `k`
calls. -/
def ParameterInterpolator.nthNext (p : ParameterInterpolator) (k : ℕ) : ℚ :=
  (p.afterCalls k).value_

theorem ParameterInterpolator.afterCalls_spec (p : ParameterInterpolator) (k : ℕ) :
    (p.afterCalls k).value_ = p.value_ + k * p.increment_ ∧
    (p.afterCalls k).increment_ = p.increment_ ∧
    (p.afterCalls k).hasState = p.hasState := by
  induction k with
  | zero => simp [afterCalls]
  | succ m ih =>
    obtain ⟨h1, h2, h3⟩ := ih
    have hstep : p.afterCalls (m + 1) = (p.afterCalls m).nextStep := by
      simp [afterCalls, Function.iterate_succ_apply']
    rw [hstep]
    refine ⟨?_, ?_, ?_⟩ <;>
      simp [nextStep, Next, h1, h2, h3] <;> push_cast <;> ring

/-- C1: a size-mode `ParameterInterpolator` over a state slot holding `a`,
with target `b` and `N > 0` samples, returns on its `k`-th `Next()` call the
value `a + k*(b-a)/N`; the sequence is strictly increasing when `a < b`,
strictly decreasing when `b < a`, and constant when `a = b`; the `N`-th call
returns exactly `b`; and running the destructor after exactly `N` calls
writes exactly `b` into the state slot. -/
theorem c1_size_mode_ramp (a b : ℚ) (N : ℕ) (hN : 0 < N) :
    (∀ k : ℕ, (ParameterInterpolator.bySize (some a) b N).nthNext k
        = a + k * ((b - a) / N)) ∧
    (ParameterInterpolator.bySize (some a) b N).nthNext N = b ∧
    (a < b → ∀ k : ℕ,
      (ParameterInterpolator.bySize (some a) b N).nthNext k
        < (ParameterInterpolator.bySize (some a) b N).nthNext (k + 1)) ∧
    (b < a → ∀ k : ℕ,
      (ParameterInterpolator.bySize (some a) b N).nthNext (k + 1)
        < (ParameterInterpolator.bySize (some a) b N).nthNext k) ∧
    (a = b → ∀ k : ℕ,
      (ParameterInterpolator.bySize (some a) b N).nthNext k = b) ∧
    (∀ slot : ℚ,
      (((ParameterInterpolator.bySize (some a) b N).afterCalls N).destruct slot) = b) := by
  have hNQ : (N : ℚ) ≠ 0 := Nat.cast_ne_zero.mpr hN.ne'
  have hNQpos : (0 : ℚ) < (N : ℚ) := by exact_mod_cast hN
  have hval : ∀ k : ℕ, (ParameterInterpolator.bySize (some a) b N).nthNext k
      = a + k * ((b - a) / N) := by
    intro k
    have := ParameterInterpolator.afterCalls_spec
      (ParameterInterpolator.bySize (some a) b N) k
    rw [ParameterInterpolator.nthNext, this.1]
    simp [ParameterInterpolator.bySize, hN]
  have hNth : (ParameterInterpolator.bySize (some a) b N).nthNext N = b := by
    rw [hval N]; field_simp
  refine ⟨hval, hNth, ?_, ?_, ?_, ?_⟩
  · intro hab k
    rw [hval k, hval (k + 1)]
    have hinc : (0 : ℚ) < (b - a) / N := div_pos (by linarith) hNQpos
    push_cast
    nlinarith
  · intro hba k
    rw [hval k, hval (k + 1)]
    have hinc : (b - a) / N < 0 := div_neg_of_neg_of_pos (by linarith) hNQpos
    push_cast
    nlinarith
  · intro hab k
    rw [hval k, hab]
    simp
  · intro slot
    have hspec := ParameterInterpolator.afterCalls_spec
      (ParameterInterpolator.bySize (some a) b N) N
    have hvN : ((ParameterInterpolator.bySize (some a) b N).afterCalls N).value_ = b := by
      have := hNth
      rwa [ParameterInterpolator.nthNext] at this
    rw [ParameterInterpolator.destruct, hspec.2.2, hvN]
    simp [ParameterInterpolator.bySize]

/-- C1 witness: the theorem applied at `a = 0`, `b = 1`, `N = 4`. -/
theorem c1_size_mode_ramp_witness :
    0 < 4 ∧ (ParameterInterpolator.bySize (some 0) 1 4).nthNext 4 = 1 :=
  ⟨by decide, (c1_size_mode_ramp 0 1 4 (by decide)).2.1⟩

/-- C10: a `ParameterInterpolator` constructed with a null state pointer, or
default-constructed, has increment `0`, returns `0` from every `Next()` call,
returns `0` from `subsample(t)` for every `t`, and its destructor leaves the
external slot untouched (no write-back, hence no null dereference); a
size-mode interpolator constructed with `size = 0` takes the guarded branch
that performs no division, has increment `0`, keeps its value constant at the
initial state `a`, and writes `a` back on destruction. -/
theorem c10_null_and_zero_size_safety (a b nv step t slot : ℚ) (N : ℕ) :
    (ParameterInterpolator.bySize none nv N).increment_ = 0 ∧
    (∀ k : ℕ, (ParameterInterpolator.bySize none nv N).nthNext k = 0) ∧
    (ParameterInterpolator.bySize none nv N).subsample t = 0 ∧
    (ParameterInterpolator.bySize none nv N).destruct slot = slot ∧
    (ParameterInterpolator.byStep none nv step).destruct slot = slot ∧
    ParameterInterpolator.defaultCtor.increment_ = 0 ∧
    (∀ k : ℕ, ParameterInterpolator.defaultCtor.nthNext k = 0) ∧
    ParameterInterpolator.defaultCtor.subsample t = 0 ∧
    ParameterInterpolator.defaultCtor.destruct slot = slot ∧
    (∀ k : ℕ, (ParameterInterpolator.defaultCtor.afterCalls k).destruct slot = slot) ∧
    (ParameterInterpolator.bySize (some a) b 0).increment_ = 0 ∧
    (∀ k : ℕ, (ParameterInterpolator.bySize (some a) b 0).nthNext k = a) ∧
    (∀ k : ℕ, ((ParameterInterpolator.bySize (some a) b 0).afterCalls k).destruct slot = a) := by
  have hnull : ∀ (nv' : ℚ) (N' : ℕ) (k : ℕ),
      (ParameterInterpolator.bySize none nv' N').nthNext k = 0 := by
    intro nv' N' k
    have := ParameterInterpolator.afterCalls_spec
      (ParameterInterpolator.bySize none nv' N') k
    rw [ParameterInterpolator.nthNext, this.1]
    simp [ParameterInterpolator.bySize]
  have hdef : ∀ k : ℕ, ParameterInterpolator.defaultCtor.nthNext k = 0 := by
    intro k
    have := ParameterInterpolator.afterCalls_spec ParameterInterpolator.defaultCtor k
    rw [ParameterInterpolator.nthNext, this.1]
    simp [ParameterInterpolator.defaultCtor]
  have hzer : ∀ k : ℕ, (ParameterInterpolator.bySize (some a) b 0).nthNext k = a := by
    intro k
    have := ParameterInterpolator.afterCalls_spec
      (ParameterInterpolator.bySize (some a) b 0) k
    rw [ParameterInterpolator.nthNext, this.1]
    simp [ParameterInterpolator.bySize]
  refine ⟨rfl, hnull nv N, by simp [ParameterInterpolator.bySize,
      ParameterInterpolator.subsample], ?_, ?_, rfl, hdef,
      by simp [ParameterInterpolator.defaultCtor, ParameterInterpolator.subsample], ?_, ?_,
      rfl, hzer, ?_⟩
  · simp [ParameterInterpolator.bySize, ParameterInterpolator.destruct]
  · simp [ParameterInterpolator.byStep, ParameterInterpolator.destruct]
  · simp [ParameterInterpolator.defaultCtor, ParameterInterpolator.destruct]
  · intro k
    have := ParameterInterpolator.afterCalls_spec ParameterInterpolator.defaultCtor k
    rw [ParameterInterpolator.destruct, this.2.2]
    simp [ParameterInterpolator.defaultCtor]
  · intro k
    have hs := ParameterInterpolator.afterCalls_spec
      (ParameterInterpolator.bySize (some a) b 0) k
    have hv := hzer k
    rw [ParameterInterpolator.nthNext] at hv
    rw [ParameterInterpolator.destruct, hs.2.2, hv]
    simp [ParameterInterpolator.bySize]

/-! ## LooperBuffer and WriteHead (`LooperBuffer.h`)

Device-wide constants (`kLooperTotalBufferLength`, `kLooperChannelBufferLength`,
`kLooperFadeSamples`, `kLooperFadeSamplesR`, `kLooperClearBlockSize`,
`kLooperClearBlockTypeSize`) are defined in `Commons.h`, which is absent from
the sources at hand; they are modelled as fields of `LooperConfig`, with the
relations the spec states: the buffer is split into two equal halves (so the
total length is twice the channel length), `kLooperFadeSamplesR` is the
reciprocal of `kLooperFadeSamples`, and the `memset` of
`kLooperClearBlockTypeSize` bytes zeroes exactly the `kLooperClearBlockSize`
floats the clear cursor advances past. -/

structure LooperConfig where
  channelLen : ℕ
  fadeSamples : ℕ
  clearBlockSize : ℕ
deriving DecidableEq

/-- `kLooperTotalBufferLength`: twice the channel length (the spec: two equal
contiguous half-regions). -/
def LooperConfig.totalLen (cfg : LooperConfig) : ℕ := 2 * cfg.channelLen

/-- `kLooperFadeSamplesR`: reciprocal of the fade length. -/
def LooperConfig.fadeSamplesR (cfg : LooperConfig) : ℚ := 1 / (cfg.fadeSamples : ℚ)

/-- Loop `while (p >= bound) p -= m;` over unsigned integers.  The guard also
carries `0 < m`, which the source guarantees through its compile-time
constants and which is required for termination. -/
def wrapSubNat (m bound : ℕ) (p : ℕ) : ℕ :=
  if h : 0 < m ∧ bound ≤ p ∧ 0 < bound then wrapSubNat m bound (p - m) else p
termination_by p
decreasing_by omega

/-- Loop `while (p >= bound) p -= m;` over signed integers, with the same
termination guards as `wrapSubNat`. -/
def whileSubZ (m bound : ℕ) (p : ℤ) : ℤ :=
  if h : 0 < m ∧ (bound : ℤ) ≤ p ∧ 0 < bound then whileSubZ m bound (p - m) else p
termination_by p.toNat
decreasing_by omega

/-- Loop `while (p < lo) p += m;` over signed integers. -/
def whileAddZ (m : ℕ) (lo : ℤ) (p : ℤ) : ℤ :=
  if h : 0 < m ∧ p < lo then whileAddZ m lo (p + m) else p
termination_by (lo - p).toNat
decreasing_by omega

/-- `WriteStatus` from `LooperBuffer.h`. -/
inductive WriteStatus
  | INACTIVE
  | FADE_IN
  | FADE_OUT
  | ACTIVE
deriving DecidableEq

/-- `WriteHead`: `status_`, `fadeIndex_` (an `int`), `doFade_`.  The attached
buffer is passed explicitly to `Write`. -/
structure WriteHead where
  status : WriteStatus
  fadeIndex : ℤ
  doFade : Bool
deriving DecidableEq

/-- Constructor state: `status_ = INACTIVE; fadeIndex_ = 0; doFade_ = false;`. -/
def WriteHead.init : WriteHead := ⟨WriteStatus.INACTIVE, 0, false⟩

/-- `IsWriting()`: `WRITE_STATUS_INACTIVE != status_`. -/
def WriteHead.IsWriting (h : WriteHead) : Bool :=
  h.status ≠ WriteStatus.INACTIVE

/-- `Start()`: from INACTIVE go to FADE_IN with `doFade_ = true`,
`fadeIndex_ = 0`; otherwise unchanged. -/
def WriteHead.Start (h : WriteHead) : WriteHead :=
  if h.status = WriteStatus.INACTIVE then
    ⟨WriteStatus.FADE_IN, 0, true⟩
  else h

/-- `Stop()`: from ACTIVE go to FADE_OUT with `doFade_ = true`,
`fadeIndex_ = 0`; otherwise unchanged. -/
def WriteHead.Stop (h : WriteHead) : WriteHead :=
  if h.status = WriteStatus.ACTIVE then
    ⟨WriteStatus.FADE_OUT, 0, true⟩
  else h

/-- Normalized write index: `position` is a `uint32_t`, so the source's first
loop (`while (position >= kLooperTotalBufferLength) position -= ...`) brings
it into range and the second loop (`while (position < 0)`) can never run. -/
def LooperConfig.normWriteIdx (cfg : LooperConfig) (position : ℕ) : ℕ :=
  wrapSubNat cfg.totalLen cfg.totalLen position

/-- Fade portion of `WriteHead::Write` (the `if (doFade_) { ... }` block):
given the buffer's current content `old` at the normalized position, returns
the updated head and the value that will be stored. -/
def WriteHead.writeFade (cfg : LooperConfig) (h : WriteHead) (old value : ℚ) :
    WriteHead × ℚ :=
  if h.doFade then
    let x0 : ℚ := (h.fadeIndex : ℚ) * cfg.fadeSamplesR
    let x1 : ℚ := if h.status = WriteStatus.FADE_IN then 1 - x0 else x0
    let fi : ℤ := h.fadeIndex + 1
    if fi = (cfg.fadeSamples : ℤ) then
      let x2 : ℚ := if h.status = WriteStatus.FADE_OUT then 1 else 0
      (⟨if h.status = WriteStatus.FADE_IN then WriteStatus.ACTIVE
          else WriteStatus.INACTIVE, fi, false⟩,
       CheapEqualPowerCrossFade value old x2)
    else
      (⟨h.status, fi, h.doFade⟩, CheapEqualPowerCrossFade value old x1)
  else (h, value)

/-- `WriteHead::Write(position, value)`: normalizes the index, advances the
crossfade state machine when a fade is in progress, computes the equal-power
crossfade of the incoming value against the buffer's current content, and
stores the result unless the (updated) status is INACTIVE.  Returns the
updated head together with the updated buffer. -/
def WriteHead.Write (cfg : LooperConfig) (h : WriteHead) (buf : ℕ → ℚ)
    (position : ℕ) (value : ℚ) : WriteHead × (ℕ → ℚ) :=
  let pos := cfg.normWriteIdx position
  let hv := WriteHead.writeFade cfg h (buf pos) value
  if hv.1.status ≠ WriteStatus.INACTIVE then
    (hv.1, Function.update buf pos hv.2)
  else
    (hv.1, buf)

/-- Head-only projection of one `Write` call: the status/fade evolution is
independent of the buffer, the position and the value (proved below as part
of C3's theorem). -/
def WriteHead.fadeAdvance (cfg : LooperConfig) (h : WriteHead) : WriteHead :=
  if h.doFade then
    let fi : ℤ := h.fadeIndex + 1
    if fi = (cfg.fadeSamples : ℤ) then
      ⟨if h.status = WriteStatus.FADE_IN then WriteStatus.ACTIVE
          else WriteStatus.INACTIVE, fi, false⟩
    else ⟨h.status, fi, h.doFade⟩
  else h

/-- Reachable `WriteHead` states: the constructor state, closed under
`Start`, `Stop` and (the head component of) `Write`. -/
inductive ReachableWriteHead (cfg : LooperConfig) : WriteHead → Prop
  | init : ReachableWriteHead cfg WriteHead.init
  | start {h : WriteHead} : ReachableWriteHead cfg h → ReachableWriteHead cfg h.Start
  | stop {h : WriteHead} : ReachableWriteHead cfg h → ReachableWriteHead cfg h.Stop
  | write {h : WriteHead} (buf : ℕ → ℚ) (position : ℕ) (value : ℚ) :
      ReachableWriteHead cfg h →
      ReachableWriteHead cfg (WriteHead.Write cfg h buf position value).1

/-- `LooperBuffer`: the shared sample buffer, the two write heads, and the
clear cursor (`clearBlock_`, kept as an offset in floats from the start of
the buffer; the constructor sets it to the start). -/
structure LooperBuffer where
  buffer : ℕ → ℚ
  headL : WriteHead
  headR : WriteHead
  clearBlock : ℕ

/-- Constructor state: the buffer is filled with scaled noise (modelled as an
arbitrary initial content `buf0`), both heads are freshly created, and the
clear cursor sits at the start of the buffer. -/
def LooperBuffer.create (buf0 : ℕ → ℚ) : LooperBuffer :=
  ⟨buf0, WriteHead.init, WriteHead.init, 0⟩

/-- `LooperBuffer::Write(i, left, right)`: left head writes at `i`, right
head writes at `i + kLooperChannelBufferLength`. -/
def LooperBuffer.Write (cfg : LooperConfig) (s : LooperBuffer) (i : ℕ)
    (left right : ℚ) : LooperBuffer :=
  let l := WriteHead.Write cfg s.headL s.buffer i left
  let r := WriteHead.Write cfg s.headR l.2 (i + cfg.channelLen) right
  ⟨r.2, l.1, r.1, s.clearBlock⟩

/-- `LooperBuffer::IsRecording()`: both heads writing. -/
def LooperBuffer.IsRecording (s : LooperBuffer) : Bool :=
  s.headL.IsWriting && s.headR.IsWriting

/-- `LooperBuffer::StartRecording()`. -/
def LooperBuffer.StartRecording (s : LooperBuffer) : LooperBuffer :=
  { s with headL := s.headL.Start, headR := s.headR.Start }

/-- `LooperBuffer::StopRecording()`. -/
def LooperBuffer.StopRecording (s : LooperBuffer) : LooperBuffer :=
  { s with headL := s.headL.Stop, headR := s.headR.Stop }

/-- `LooperBuffer::Clear()`: if the clear cursor reached the end of the
buffer, reset it to the start and return `true`; otherwise `memset` one
chunk of `kLooperClearBlockSize` floats to zero, advance the cursor, and
return `false`. -/
def LooperBuffer.Clear (cfg : LooperConfig) (s : LooperBuffer) : LooperBuffer × Bool :=
  if s.clearBlock = cfg.totalLen then
    ({ s with clearBlock := 0 }, true)
  else
    ({ s with
        buffer := fun j =>
          if s.clearBlock ≤ j ∧ j < s.clearBlock + cfg.clearBlockSize then 0
          else s.buffer j,
        clearBlock := s.clearBlock + cfg.clearBlockSize }, false)

/-- Normalized left-channel read index:
`while (p >= kLooperChannelBufferLength) p -= kLooperChannelBufferLength;`
then `while (p < 0) p += kLooperChannelBufferLength;`. -/
def LooperConfig.normLeftIdx (cfg : LooperConfig) (position : ℤ) : ℤ :=
  whileAddZ cfg.channelLen 0 (whileSubZ cfg.channelLen cfg.channelLen position)

/-- Normalized right-channel read index: `position += channelLen;` then
`while (p >= kLooperTotalBufferLength) p -= kLooperChannelBufferLength;` and
`while (p < kLooperChannelBufferLength) p += kLooperChannelBufferLength;`. -/
def LooperConfig.normRightIdx (cfg : LooperConfig) (position : ℤ) : ℤ :=
  whileAddZ cfg.channelLen cfg.channelLen
    (whileSubZ cfg.channelLen cfg.totalLen (position + cfg.channelLen))

/-- `LooperBuffer::ReadLeft(position)`. -/
def LooperBuffer.ReadLeft (cfg : LooperConfig) (s : LooperBuffer) (position : ℤ) : ℚ :=
  s.buffer (cfg.normLeftIdx position).toNat

/-- `LooperBuffer::ReadRight(position)`. -/
def LooperBuffer.ReadRight (cfg : LooperConfig) (s : LooperBuffer) (position : ℤ) : ℚ :=
  s.buffer (cfg.normRightIdx position).toNat

theorem wrapSubNat_lt (m bound p : ℕ) (hm : 0 < m) (hb : 0 < bound) :
    wrapSubNat m bound p < bound := by
  induction p using wrapSubNat.induct m bound with
  | case1 p hg ih =>
    rw [wrapSubNat, dif_pos hg]
    exact ih
  | case2 p hg =>
    rw [wrapSubNat, dif_neg hg]
    omega

theorem wrapSubNat_of_lt (m bound p : ℕ) (hp : p < bound) :
    wrapSubNat m bound p = p := by
  rw [wrapSubNat, dif_neg]
  omega

theorem whileSubZ_lt (m bound : ℕ) (p : ℤ) (hm : 0 < m) (hb : 0 < bound) :
    whileSubZ m bound p < bound := by
  induction p using whileSubZ.induct m bound with
  | case1 p hg ih =>
    rw [whileSubZ, dif_pos hg]
    exact ih
  | case2 p hg =>
    rw [whileSubZ, dif_neg hg]
    omega

theorem whileSubZ_lower (m bound : ℕ) (p : ℤ) :
    min p ((bound : ℤ) - m) ≤ whileSubZ m bound p := by
  induction p using whileSubZ.induct m bound with
  | case1 p hg ih =>
    rw [whileSubZ, dif_pos hg]
    omega
  | case2 p hg =>
    rw [whileSubZ, dif_neg hg]
    omega

theorem whileAddZ_ge (m : ℕ) (lo p : ℤ) (hm : 0 < m) :
    lo ≤ whileAddZ m lo p ∨ (whileAddZ m lo p = p ∧ lo ≤ p) := by
  induction p using whileAddZ.induct m lo with
  | case1 p hg ih =>
    rw [whileAddZ, dif_pos hg]
    omega
  | case2 p hg =>
    rw [whileAddZ, dif_neg hg]
    omega

theorem whileAddZ_le_max (m : ℕ) (lo p : ℤ) :
    whileAddZ m lo p ≤ max p (lo + m - 1) := by
  induction p using whileAddZ.induct m lo with
  | case1 p hg ih =>
    rw [whileAddZ, dif_pos hg]
    omega
  | case2 p hg =>
    rw [whileAddZ, dif_neg hg]
    omega

/-- C4: for every integer position `p` (negative or arbitrarily large) and
every `uint32_t` write position `q`, the indices actually used to access the
underlying array are first normalized: the left-channel read index lands in
`[0, channelLen)`, the right-channel read index lands in
`[channelLen, totalLen)`, the write index lands in `[0, totalLen)`; and
`ReadLeft`, `ReadRight` and `WriteHead::Write` touch the array only at those
normalized indices. -/
theorem c4_index_normalization (cfg : LooperConfig) (hch : 0 < cfg.channelLen)
    (p : ℤ) (q : ℕ) :
    (0 ≤ cfg.normLeftIdx p ∧ cfg.normLeftIdx p < (cfg.channelLen : ℤ)) ∧
    ((cfg.channelLen : ℤ) ≤ cfg.normRightIdx p ∧
      cfg.normRightIdx p < (cfg.totalLen : ℤ)) ∧
    cfg.normWriteIdx q < cfg.totalLen ∧
    (∀ s : LooperBuffer, s.ReadLeft cfg p = s.buffer (cfg.normLeftIdx p).toNat) ∧
    (∀ s : LooperBuffer, s.ReadRight cfg p = s.buffer (cfg.normRightIdx p).toNat) ∧
    (∀ (h : WriteHead) (buf : ℕ → ℚ) (v : ℚ),
      (WriteHead.Write cfg h buf q v).2 = buf ∨
      ∃ w : ℚ, (WriteHead.Write cfg h buf q v).2
        = Function.update buf (cfg.normWriteIdx q) w) := by
  have htot : 0 < cfg.totalLen := by
    simp only [LooperConfig.totalLen]; omega
  refine ⟨?_, ?_, ?_, fun s => rfl, fun s => rfl, ?_⟩
  · unfold LooperConfig.normLeftIdx
    have h1 := whileSubZ_lt cfg.channelLen cfg.channelLen p hch hch
    have h2 := whileAddZ_ge cfg.channelLen 0
      (whileSubZ cfg.channelLen cfg.channelLen p) hch
    have h3 := whileAddZ_le_max cfg.channelLen 0
      (whileSubZ cfg.channelLen cfg.channelLen p)
    omega
  · unfold LooperConfig.normRightIdx
    have h1 := whileSubZ_lt cfg.channelLen cfg.totalLen
      (p + cfg.channelLen) hch htot
    have h2 := whileAddZ_ge cfg.channelLen cfg.channelLen
      (whileSubZ cfg.channelLen cfg.totalLen (p + cfg.channelLen)) hch
    have h3 := whileAddZ_le_max cfg.channelLen cfg.channelLen
      (whileSubZ cfg.channelLen cfg.totalLen (p + cfg.channelLen))
    have h4 : (cfg.totalLen : ℤ) = 2 * cfg.channelLen := by
      simp only [LooperConfig.totalLen]
      push_cast
      ring
    omega
  · exact wrapSubNat_lt cfg.totalLen cfg.totalLen q htot htot
  · intro h buf v
    simp only [WriteHead.Write]
    set hv := WriteHead.writeFade cfg h (buf (cfg.normWriteIdx q)) v with hv_def
    split
    · exact Or.inr ⟨hv.2, rfl⟩
    · exact Or.inl rfl

/-- C4 witness: the theorem applied at a concrete configuration
(`channelLen = 8`), a negative read position and an out-of-range write
position. -/
theorem c4_index_normalization_witness :
    0 < (8 : ℕ) ∧
    0 ≤ LooperConfig.normLeftIdx ⟨8, 4, 2⟩ (-5) ∧
    LooperConfig.normLeftIdx ⟨8, 4, 2⟩ (-5) < (8 : ℤ) :=
  ⟨by decide,
    (c4_index_normalization ⟨8, 4, 2⟩ (by decide) (-5) 100).1.1,
    (c4_index_normalization ⟨8, 4, 2⟩ (by decide) (-5) 100).1.2⟩

theorem WriteHead.writeFade_fst (cfg : LooperConfig) (h : WriteHead) (old value : ℚ) :
    (WriteHead.writeFade cfg h old value).1 = WriteHead.fadeAdvance cfg h := by
  simp only [writeFade, fadeAdvance]
  by_cases hd : h.doFade
  · simp only [hd, if_true]
    by_cases hfi : h.fadeIndex + 1 = (cfg.fadeSamples : ℤ)
    · simp [hfi]
    · simp [hfi]
  · simp [hd]

theorem WriteHead.Write_fst (cfg : LooperConfig) (h : WriteHead) (buf : ℕ → ℚ)
    (position : ℕ) (value : ℚ) :
    (WriteHead.Write cfg h buf position value).1 = WriteHead.fadeAdvance cfg h := by
  simp only [Write]
  split <;> simp [writeFade_fst]

theorem fadeAdvance_iter (cfg : LooperConfig) (st : WriteStatus) (j : ℕ)
    (hj : j < cfg.fadeSamples) :
    (WriteHead.fadeAdvance cfg)^[j] ⟨st, 0, true⟩ = ⟨st, (j : ℤ), true⟩ := by
  induction j with
  | zero => simp
  | succ m ih =>
    rw [Function.iterate_succ_apply', ih (by omega)]
    have hne : ¬((m : ℤ) + 1 = (cfg.fadeSamples : ℤ)) := by
      have : ¬(m + 1 = cfg.fadeSamples) := by omega
      exact_mod_cast this
    simp only [WriteHead.fadeAdvance, if_true, hne, if_false]
    push_cast
    simp

theorem fadeAdvance_iter_complete (cfg : LooperConfig) (st : WriteStatus)
    (hN : 0 < cfg.fadeSamples) :
    (WriteHead.fadeAdvance cfg)^[cfg.fadeSamples] ⟨st, 0, true⟩
      = ⟨if st = WriteStatus.FADE_IN then WriteStatus.ACTIVE else WriteStatus.INACTIVE,
         (cfg.fadeSamples : ℤ), false⟩ := by
  obtain ⟨m, hm⟩ : ∃ m, cfg.fadeSamples = m + 1 := ⟨cfg.fadeSamples - 1, by omega⟩
  rw [hm, Function.iterate_succ_apply',
    fadeAdvance_iter cfg st m (by omega)]
  simp only [WriteHead.fadeAdvance, if_true, hm]
  push_cast
  simp

/-- C3: for every reachable `WriteHead` state, `Start()` is a no-op unless
the status is INACTIVE and `Stop()` is a no-op unless the status is ACTIVE;
the head component of every `Write` call is a deterministic function of the
head state alone (`fadeAdvance`); and after entering a fade from INACTIVE via
`Start()` (resp. from ACTIVE via `Stop()`), exactly `kLooperFadeSamples`
writes complete the fade — the status stays FADE_IN (resp. FADE_OUT) for the
first `kLooperFadeSamples - 1` writes and equals ACTIVE (resp. INACTIVE)
right after the `kLooperFadeSamples`-th write. -/
theorem c3_writehead_state_machine (cfg : LooperConfig) (hN : 0 < cfg.fadeSamples)
    (h : WriteHead) (_hr : ReachableWriteHead cfg h) :
    (h.status ≠ WriteStatus.INACTIVE → h.Start = h) ∧
    (h.status ≠ WriteStatus.ACTIVE → h.Stop = h) ∧
    (∀ (buf : ℕ → ℚ) (position : ℕ) (value : ℚ),
      (WriteHead.Write cfg h buf position value).1 = WriteHead.fadeAdvance cfg h) ∧
    (h.status = WriteStatus.INACTIVE →
      ((WriteHead.fadeAdvance cfg)^[cfg.fadeSamples] h.Start).status
          = WriteStatus.ACTIVE ∧
      ∀ k, k < cfg.fadeSamples →
        ((WriteHead.fadeAdvance cfg)^[k] h.Start).status = WriteStatus.FADE_IN) ∧
    (h.status = WriteStatus.ACTIVE →
      ((WriteHead.fadeAdvance cfg)^[cfg.fadeSamples] h.Stop).status
          = WriteStatus.INACTIVE ∧
      ∀ k, k < cfg.fadeSamples →
        ((WriteHead.fadeAdvance cfg)^[k] h.Stop).status = WriteStatus.FADE_OUT) := by
  refine ⟨?_, ?_, fun buf position value => WriteHead.Write_fst cfg h buf position value,
    ?_, ?_⟩
  · intro hs
    simp [WriteHead.Start, hs]
  · intro hs
    simp [WriteHead.Stop, hs]
  · intro hs
    have hstart : h.Start = ⟨WriteStatus.FADE_IN, 0, true⟩ := by
      simp [WriteHead.Start, hs]
    rw [hstart]
    constructor
    · rw [fadeAdvance_iter_complete cfg _ hN]
      simp
    · intro k hk
      rw [fadeAdvance_iter cfg _ k hk]
  · intro hs
    have hstop : h.Stop = ⟨WriteStatus.FADE_OUT, 0, true⟩ := by
      simp [WriteHead.Stop, hs]
    rw [hstop]
    constructor
    · rw [fadeAdvance_iter_complete cfg _ hN]
      simp
    · intro k hk
      rw [fadeAdvance_iter cfg _ k hk]

/-- C3 witness: the theorem applied to the freshly constructed head with a
concrete configuration (`fadeSamples = 4`): starting from INACTIVE, `Start()`
followed by 4 writes reaches ACTIVE. -/
theorem c3_writehead_state_machine_witness :
    0 < (4 : ℕ) ∧
    ((WriteHead.fadeAdvance ⟨8, 4, 2⟩)^[4] (WriteHead.init.Start)).status
      = WriteStatus.ACTIVE :=
  ⟨by decide,
    ((c3_writehead_state_machine ⟨8, 4, 2⟩ (by decide) WriteHead.init
      ReachableWriteHead.init).2.2.2.1 rfl).1⟩

/-- Configuration for the C2 scenario: fade length 4 samples, as the claim
assumes (the channel length, irrelevant to the fade logic, is fixed at 8). -/
def c2cfg : LooperConfig := ⟨8, 4, 2⟩

/-- C2 scenario: the looper (buffer initially `buf0`) after `StartRecording()`
followed by `k` calls to `Write(0, 1.0, 1.0)`. -/
def c2State (buf0 : ℕ → ℚ) : ℕ → LooperBuffer
  | 0 => (LooperBuffer.create buf0).StartRecording
  | k + 1 => (c2State buf0 k).Write c2cfg 0 1 1

/-- C2 scenario, continued: after the subsequent `StopRecording()` followed
by `k` more `Write(0, 1.0, 1.0)` calls. -/
def c2StopState (buf0 : ℕ → ℚ) : ℕ → LooperBuffer
  | 0 => (c2State buf0 4).StopRecording
  | k + 1 => (c2StopState buf0 k).Write c2cfg 0 1 1

/-- C2 claim-side definition, following the claim's words: a write whose
weight on the old buffer content is `w` yields `w * old + (1 - w) * new`. -/
def c2ClaimWeightedWrite (old new w : ℚ) : ℚ := w * old + (1 - w) * new

/-- C2 counterexample: the claim says the per-write weights on the old buffer
content are {0.75, 0.5, 0.25, 0.0}, so with old content 0 and incoming value
1.0 the first write would have to store 0.75*0 + 0.25*1 = 0.25.  The code
computes the crossfade position `x = 1 - fadeIndex/4` with `fadeIndex = 0` on
the first write, i.e. position 1 = all old content: the buffer at index 0 is
still 0 after the first write, not 0.25. -/
theorem c2_counterexample :
    (c2State (fun _ => 0) 1).buffer 0 = 0 ∧
    c2ClaimWeightedWrite 0 1 (3 / 4) = 1 / 4 ∧
    (c2State (fun _ => 0) 1).buffer 0 ≠ c2ClaimWeightedWrite 0 1 (3 / 4) := by
  have h0 : (c2State (fun _ => 0) 1).buffer 0 = 0 := by
    simp [c2State, LooperBuffer.create, LooperBuffer.StartRecording, WriteHead.init,
      WriteHead.Start, LooperBuffer.Write, WriteHead.Write, WriteHead.writeFade,
      LooperConfig.normWriteIdx, LooperConfig.fadeSamplesR, LooperConfig.totalLen,
      c2cfg, wrapSubNat, Function.update_apply, CheapEqualPowerCrossFade]
  refine ⟨h0, by norm_num [c2ClaimWeightedWrite], ?_⟩
  rw [h0]
  norm_num [c2ClaimWeightedWrite]

/-- C2 (amended): with a fade length of 4, after `StartRecording()` the four
`Write(0, 1.0, 1.0)` calls apply the equal-power crossfade at positions
{1.0, 0.75, 0.5, 0.0} toward the old buffer content (so the first write
leaves the old content unchanged), the buffer holds exactly 1.0 at both
channel positions after the 4th write, and `IsRecording()` stays true
throughout and becomes false only after `StopRecording()` plus 4 further
writes. -/
theorem c2_amended_fade_in_scenario (buf0 : ℕ → ℚ) :
    (c2State buf0 1).buffer 0 = CheapEqualPowerCrossFade 1 (buf0 0) 1 ∧
    (c2State buf0 1).buffer 0 = buf0 0 ∧
    (c2State buf0 2).buffer 0
      = CheapEqualPowerCrossFade 1 ((c2State buf0 1).buffer 0) (3 / 4) ∧
    (c2State buf0 3).buffer 0
      = CheapEqualPowerCrossFade 1 ((c2State buf0 2).buffer 0) (1 / 2) ∧
    (c2State buf0 4).buffer 0
      = CheapEqualPowerCrossFade 1 ((c2State buf0 3).buffer 0) 0 ∧
    (c2State buf0 4).buffer 0 = 1 ∧
    (c2State buf0 4).buffer 8 = 1 ∧
    (∀ k, k ≤ 4 → (c2State buf0 k).IsRecording = true) ∧
    (∀ k, k ≤ 3 → (c2StopState buf0 k).IsRecording = true) ∧
    (c2StopState buf0 4).IsRecording = false := by
  refine ⟨?_, ?_, ?_, ?_, ?_, ?_, ?_, ?_, ?_, ?_⟩
  · simp [c2State, LooperBuffer.create, LooperBuffer.StartRecording, WriteHead.init,
      WriteHead.Start, LooperBuffer.Write, WriteHead.Write, WriteHead.writeFade,
      LooperConfig.normWriteIdx, LooperConfig.fadeSamplesR, LooperConfig.totalLen,
      c2cfg, wrapSubNat, Function.update_apply, CheapEqualPowerCrossFade]
  · simp [c2State, LooperBuffer.create, LooperBuffer.StartRecording, WriteHead.init,
      WriteHead.Start, LooperBuffer.Write, WriteHead.Write, WriteHead.writeFade,
      LooperConfig.normWriteIdx, LooperConfig.fadeSamplesR, LooperConfig.totalLen,
      c2cfg, wrapSubNat, Function.update_apply, CheapEqualPowerCrossFade]
    ring
  · simp [c2State, LooperBuffer.create, LooperBuffer.StartRecording, WriteHead.init,
      WriteHead.Start, LooperBuffer.Write, WriteHead.Write, WriteHead.writeFade,
      LooperConfig.normWriteIdx, LooperConfig.fadeSamplesR, LooperConfig.totalLen,
      c2cfg, wrapSubNat, Function.update_apply, CheapEqualPowerCrossFade]
    ring
  · simp [c2State, LooperBuffer.create, LooperBuffer.StartRecording, WriteHead.init,
      WriteHead.Start, LooperBuffer.Write, WriteHead.Write, WriteHead.writeFade,
      LooperConfig.normWriteIdx, LooperConfig.fadeSamplesR, LooperConfig.totalLen,
      c2cfg, wrapSubNat, Function.update_apply, CheapEqualPowerCrossFade]
    ring
  · simp [c2State, LooperBuffer.create, LooperBuffer.StartRecording, WriteHead.init,
      WriteHead.Start, LooperBuffer.Write, WriteHead.Write, WriteHead.writeFade,
      LooperConfig.normWriteIdx, LooperConfig.fadeSamplesR, LooperConfig.totalLen,
      c2cfg, wrapSubNat, Function.update_apply, CheapEqualPowerCrossFade]
  · simp [c2State, LooperBuffer.create, LooperBuffer.StartRecording, WriteHead.init,
      WriteHead.Start, LooperBuffer.Write, WriteHead.Write, WriteHead.writeFade,
      LooperConfig.normWriteIdx, LooperConfig.fadeSamplesR, LooperConfig.totalLen,
      c2cfg, wrapSubNat, Function.update_apply, CheapEqualPowerCrossFade]
  · simp [c2State, LooperBuffer.create, LooperBuffer.StartRecording, WriteHead.init,
      WriteHead.Start, LooperBuffer.Write, WriteHead.Write, WriteHead.writeFade,
      LooperConfig.normWriteIdx, LooperConfig.fadeSamplesR, LooperConfig.totalLen,
      c2cfg, wrapSubNat, Function.update_apply, CheapEqualPowerCrossFade]
  · intro k hk
    interval_cases k <;>
      simp [c2State, LooperBuffer.create, LooperBuffer.StartRecording, WriteHead.init,
        WriteHead.Start, LooperBuffer.Write, LooperBuffer.IsRecording, WriteHead.IsWriting,
        WriteHead.Write, WriteHead.writeFade, LooperConfig.normWriteIdx,
        LooperConfig.fadeSamplesR, LooperConfig.totalLen, c2cfg, wrapSubNat,
        Function.update_apply, CheapEqualPowerCrossFade]
  · intro k hk
    interval_cases k <;>
      simp [c2StopState, c2State, LooperBuffer.create, LooperBuffer.StartRecording,
        LooperBuffer.StopRecording, WriteHead.init, WriteHead.Start, WriteHead.Stop,
        LooperBuffer.Write, LooperBuffer.IsRecording, WriteHead.IsWriting,
        WriteHead.Write, WriteHead.writeFade, LooperConfig.normWriteIdx,
        LooperConfig.fadeSamplesR, LooperConfig.totalLen, c2cfg, wrapSubNat,
        Function.update_apply, CheapEqualPowerCrossFade]
  · simp [c2StopState, c2State, LooperBuffer.create, LooperBuffer.StartRecording,
      LooperBuffer.StopRecording, WriteHead.init, WriteHead.Start, WriteHead.Stop,
      LooperBuffer.Write, LooperBuffer.IsRecording, WriteHead.IsWriting,
      WriteHead.Write, WriteHead.writeFade, LooperConfig.normWriteIdx,
      LooperConfig.fadeSamplesR, LooperConfig.totalLen, c2cfg, wrapSubNat,
      Function.update_apply, CheapEqualPowerCrossFade]

/-- C2 witness for the amended theorem: applied to a buffer initially holding
one half everywhere; its hypotheses (the bounds in the `IsRecording`
conjuncts) discharged at `k = 2`. -/
theorem c2_amended_fade_in_scenario_witness :
    (c2State (fun _ => 1 / 2) 4).buffer 0 = 1 ∧
    (c2State (fun _ => 1 / 2) 2).IsRecording = true :=
  ⟨(c2_amended_fade_in_scenario (fun _ => 1 / 2)).2.2.2.2.2.1,
    (c2_amended_fade_in_scenario (fun _ => 1 / 2)).2.2.2.2.2.2.2.1 2 (by norm_num)⟩

/-- State after `k` successive `Clear()` calls. -/
def clearIter (cfg : LooperConfig) (s : LooperBuffer) : ℕ → LooperBuffer
  | 0 => s
  | k + 1 => (LooperBuffer.Clear cfg (clearIter cfg s k)).1

theorem clearIter_clearBlock (cfg : LooperConfig) (s : LooperBuffer) (q : ℕ)
    (hq : cfg.totalLen = q * cfg.clearBlockSize) (hbs : 0 < cfg.clearBlockSize)
    (h0 : s.clearBlock = 0) :
    ∀ k, k ≤ q → (clearIter cfg s k).clearBlock = k * cfg.clearBlockSize := by
  intro k
  induction k with
  | zero => simpa [clearIter]
  | succ m ih =>
    intro hm
    have hcb := ih (by omega)
    have hne : m * cfg.clearBlockSize ≠ cfg.totalLen := by
      rw [hq]
      intro hEq
      have := Nat.eq_of_mul_eq_mul_right hbs hEq
      omega
    simp [clearIter, LooperBuffer.Clear, hcb, hne]
    ring

/-- C9: with the clear cursor at the start of the buffer and the buffer
length an exact multiple `q` of the clear-block size, each of the first `q`
`Clear()` calls returns false, zeroes exactly one clear-block-sized chunk
(every sample outside that chunk is untouched) and advances the cursor by
one chunk; the `(q+1)`-th call — the one at which the cursor has reached the
end of the buffer — returns true, resets the cursor to the start and leaves
the buffer untouched.  `Clear()` therefore returns true exactly once per
full pass. -/
theorem c9_incremental_clear (cfg : LooperConfig) (q : ℕ)
    (hq : cfg.totalLen = q * cfg.clearBlockSize) (hbs : 0 < cfg.clearBlockSize)
    (s : LooperBuffer) (h0 : s.clearBlock = 0) :
    (∀ k, k < q →
      (LooperBuffer.Clear cfg (clearIter cfg s k)).2 = false ∧
      (clearIter cfg s (k + 1)).clearBlock = (k + 1) * cfg.clearBlockSize ∧
      (∀ j, j < k * cfg.clearBlockSize ∨ (k + 1) * cfg.clearBlockSize ≤ j →
        (clearIter cfg s (k + 1)).buffer j = (clearIter cfg s k).buffer j) ∧
      (∀ j, k * cfg.clearBlockSize ≤ j → j < (k + 1) * cfg.clearBlockSize →
        (clearIter cfg s (k + 1)).buffer j = 0)) ∧
    (LooperBuffer.Clear cfg (clearIter cfg s q)).2 = true ∧
    (clearIter cfg s (q + 1)).clearBlock = 0 ∧
    (∀ j, (clearIter cfg s (q + 1)).buffer j = (clearIter cfg s q).buffer j) := by
  have hcb := clearIter_clearBlock cfg s q hq hbs h0
  have hstep : ∀ k, k < q →
      (clearIter cfg s k).clearBlock ≠ cfg.totalLen := by
    intro k hk
    rw [hcb k (by omega), hq]
    intro hEq
    have := Nat.eq_of_mul_eq_mul_right hbs hEq
    omega
  refine ⟨?_, ?_, ?_, ?_⟩
  · intro k hk
    have hne := hstep k hk
    have hk' := hcb k (by omega)
    refine ⟨?_, hcb (k + 1) (by omega), ?_, ?_⟩
    · simp [LooperBuffer.Clear, hne]
    · intro j hj
      have hkb : (k + 1) * cfg.clearBlockSize
          = k * cfg.clearBlockSize + cfg.clearBlockSize := by ring
      simp only [clearIter, LooperBuffer.Clear, if_neg hne]
      have : ¬((clearIter cfg s k).clearBlock ≤ j ∧
          j < (clearIter cfg s k).clearBlock + cfg.clearBlockSize) := by
        rw [hk']
        omega
      simp [this]
    · intro j hj1 hj2
      have hkb : (k + 1) * cfg.clearBlockSize
          = k * cfg.clearBlockSize + cfg.clearBlockSize := by ring
      simp only [clearIter, LooperBuffer.Clear, if_neg hne]
      have : (clearIter cfg s k).clearBlock ≤ j ∧
          j < (clearIter cfg s k).clearBlock + cfg.clearBlockSize := by
        rw [hk']
        omega
      simp [this]
  · have : (clearIter cfg s q).clearBlock = cfg.totalLen := by
      rw [hcb q le_rfl, hq]
    simp [LooperBuffer.Clear, this]
  · have : (clearIter cfg s q).clearBlock = cfg.totalLen := by
      rw [hcb q le_rfl, hq]
    simp [clearIter, LooperBuffer.Clear, this]
  · intro j
    have : (clearIter cfg s q).clearBlock = cfg.totalLen := by
      rw [hcb q le_rfl, hq]
    simp [clearIter, LooperBuffer.Clear, this]

/-- C9 witness: a concrete configuration (buffer of 8 floats, clear blocks of
2 floats, so `q = 4`): the first call returns false and the fifth returns
true. -/
theorem c9_incremental_clear_witness :
    (LooperBuffer.Clear ⟨4, 4, 2⟩
      (clearIter ⟨4, 4, 2⟩ (LooperBuffer.create fun _ => 1) 0)).2 = false ∧
    (LooperBuffer.Clear ⟨4, 4, 2⟩
      (clearIter ⟨4, 4, 2⟩ (LooperBuffer.create fun _ => 1) 4)).2 = true :=
  ⟨((c9_incremental_clear ⟨4, 4, 2⟩ 4 rfl (by decide)
      (LooperBuffer.create fun _ => 1) rfl).1 0 (by decide)).1,
    (c9_incremental_clear ⟨4, 4, 2⟩ 4 rfl (by decide)
      (LooperBuffer.create fun _ => 1) rfl).2.1⟩

/-! ## Damp (one-pole damping filter pair) -/

/-- `Damp`: two one-pole filter states and their coefficients.  The
constructor zeroes all four fields. -/
structure Damp where
  lpCoeff_ : ℚ
  hpCoeff_ : ℚ
  lpState_ : ℚ
  hpState_ : ℚ
deriving DecidableEq

/-- `Damp` constructor: `lpState_ = hpState_ = lpCoeff_ = hpCoeff_ = 0`. -/
def Damp.create : Damp := ⟨0, 0, 0, 0⟩

/-- `SetHi(val)`: `lpCoeff_ = Clamp(Map(val, -40, -0.5, 0.05, 0.9), 0.001, 0.999)`. -/
def Damp.SetHi (d : Damp) (val : ℚ) : Damp :=
  { d with lpCoeff_ :=
      Clamp (Map val (-40) (-1 / 2) (1 / 20) (9 / 10)) (1 / 1000) (999 / 1000) }

/-- `SetLo(val)`: `hpCoeff_ = Clamp(Map(val, -40, -0.5, 0.9, 0.05), 0.001, 0.999)`. -/
def Damp.SetLo (d : Damp) (val : ℚ) : Damp :=
  { d with hpCoeff_ :=
      Clamp (Map val (-40) (-1 / 2) (9 / 10) (1 / 20)) (1 / 1000) (999 / 1000) }

/-- `Process(in)`: updates the lowpass state, updates the tracking highpass
state, computes the (dead) subtraction `out = lpState_ - hpState_`, and
returns `lpState_`. -/
def Damp.Process (d : Damp) (inp : ℚ) : Damp × ℚ :=
  let lp := d.lpState_ + d.lpCoeff_ * (inp - d.lpState_)
  let hp := d.hpState_ + d.hpCoeff_ * (lp - d.hpState_)
  let _out := lp - hp
  ({ d with lpState_ := lp, hpState_ := hp }, lp)

/-- Sequence of values returned by successive `Process` calls on an input
sequence. -/
def Damp.processRun (d : Damp) : List ℚ → List ℚ
  | [] => []
  | x :: xs => (d.Process x).2 :: ((d.Process x).1.processRun xs)

/-- C7 claim-side definition, following the spec's words: the plain one-pole
lowpass `y[n] = y[n-1] + coeff * (x[n] - y[n-1])`, returning the sequence of
its outputs. -/
def lowpassRunSpec (coeff : ℚ) : ℚ → List ℚ → List ℚ
  | _, [] => []
  | yPrev, x :: xs =>
    (yPrev + coeff * (x - yPrev)) :: lowpassRunSpec coeff (yPrev + coeff * (x - yPrev)) xs

theorem Damp.processRun_eq_lowpass (d : Damp) (xs : List ℚ) :
    d.processRun xs = lowpassRunSpec d.lpCoeff_ d.lpState_ xs := by
  induction xs generalizing d with
  | nil => simp [processRun, lowpassRunSpec]
  | cons x xs ih =>
    simp [processRun, lowpassRunSpec, Process, ih]

/-- C7: the sequence returned by `Damp::Process` is exactly the one-pole
lowpass of the input governed solely by the coefficient set via `SetHi`
starting from the lowpass state; two runs that differ only in the argument
ever passed to `SetLo` return identical values on every call; and the
highpass tracking state is still updated internally on every call. -/
theorem c7_damp_lowpass_only (d : Damp) (v w1 w2 : ℚ) (inputs : List ℚ) :
    ((d.SetHi v).SetLo w1).processRun inputs
      = ((d.SetHi v).SetLo w2).processRun inputs ∧
    ((d.SetHi v).SetLo w1).processRun inputs
      = lowpassRunSpec ((d.SetHi v).lpCoeff_) d.lpState_ inputs ∧
    (∀ x : ℚ, ((d.Process x).1).hpState_
      = d.hpState_ + d.hpCoeff_
        * ((d.lpState_ + d.lpCoeff_ * (x - d.lpState_)) - d.hpState_)) := by
  refine ⟨?_, ?_, fun x => rfl⟩
  · rw [Damp.processRun_eq_lowpass, Damp.processRun_eq_lowpass]
    rfl
  · rw [Damp.processRun_eq_lowpass]
    rfl

/-! ## Diffuse (diffusion/feedback network) -/

/-- `Diffuse` over `n + 1` delay stages (`kAmbienceNofDiffusers` is a
compile-time constant from `Commons.h`, absent from the sources at hand, so
the stage count is kept abstract).  Only the fields touched by the modelled
member functions are carried; the delay-line contents live in `DelayLine`,
also not part of the sources. -/
structure Diffuse (n : ℕ) where
  delayTimes : Fin (n + 1) → ℚ
  newDelayTimes : Fin (n + 1) → ℚ
  size_ : ℚ
  time_ : ℚ
  rt_ : ℚ
  needsUpdate : Bool

/-- Modelled from the spec: `kOne` is a `Commons.h` constant absent from the
sources; the spec says the feedback gain is clamped to unity gain, so it is
modelled as 1. -/
def kOne : ℚ := 1

/-- `SetRT(time)`: `rt_ = Db2A((delayTimes_[last] / M2D(time)) * -60.f)`,
then `if (rt_ >= kOne) rt_ = 1.f`.  `Db2A` and `M2D` are conversion helpers
from `Commons.h` (absent from the sources) and are passed as abstract
functions — the clamp makes the result independent of their actual shape. -/
def Diffuse.SetRT (db2a m2d : ℚ → ℚ) (s : Diffuse n) (time : ℚ) : Diffuse n :=
  let rt := db2a ((s.delayTimes (Fin.last n) / m2d time) * (-60))
  { s with time_ := time, rt_ := if rt ≥ kOne then 1 else rt }

/-- `SetSZ(size)`: stages new delay times for every stage —
`M2D(size + 2.f * (i + 1))` for stages `0 .. n-1` and `M2D(size - 7.f)` for
the last stage — then calls `SetRT(time_)` (which reads the *current* delay
times) and marks the update pending. -/
def Diffuse.SetSZ (db2a m2d : ℚ → ℚ) (s : Diffuse n) (size : ℚ) : Diffuse n :=
  let newDT : Fin (n + 1) → ℚ := fun i =>
    if (i : ℕ) < n then m2d (size + 2 * ((i : ℕ) + 1)) else m2d (size - 7)
  let s1 := { s with size_ := size, newDelayTimes := newDT }
  let s2 := Diffuse.SetRT db2a m2d s1 s.time_
  { s2 with needsUpdate := true }

/-- `UpdateDelayTimes()`: early-out when no update is pending; otherwise copy
every staged delay time into the current array in the same call and clear
the pending flag. -/
def Diffuse.UpdateDelayTimes (s : Diffuse n) : Diffuse n :=
  if s.needsUpdate then
    { s with delayTimes := s.newDelayTimes, needsUpdate := false }
  else s

/-- C5: for every abstract conversion functions, every current delay-time
configuration and every target decay time (including degenerate ones), the
feedback gain stored by `SetRT` — called directly or from inside `SetSZ` —
is at most 1; the feedback tap is scaled by exactly this gain, so it is
never scaled by more than unity. -/
theorem c5_feedback_gain_clamped (n : ℕ) (db2a m2d : ℚ → ℚ) (s : Diffuse n)
    (time size : ℚ) :
    (Diffuse.SetRT db2a m2d s time).rt_ ≤ 1 ∧
    (Diffuse.SetSZ db2a m2d s size).rt_ ≤ 1 := by
  have key : ∀ (s' : Diffuse n) (t : ℚ), (Diffuse.SetRT db2a m2d s' t).rt_ ≤ 1 := by
    intro s' t
    simp only [Diffuse.SetRT, kOne, ge_iff_le]
    split
    · exact le_refl 1
    · linarith
  exact ⟨key s time, key _ s.time_⟩

/-- C6: `SetSZ` stages new delay times without modifying the current (active)
delay-time array; it only marks the update pending; a subsequent
`UpdateDelayTimes()` copies every staged stage into the current array in the
same call; and `UpdateDelayTimes()` on a state with no pending update changes
nothing. -/
theorem c6_staged_delay_times (n : ℕ) (db2a m2d : ℚ → ℚ) (s : Diffuse n) (size : ℚ) :
    (Diffuse.SetSZ db2a m2d s size).delayTimes = s.delayTimes ∧
    (Diffuse.SetSZ db2a m2d s size).needsUpdate = true ∧
    (Diffuse.UpdateDelayTimes (Diffuse.SetSZ db2a m2d s size)).delayTimes
      = (Diffuse.SetSZ db2a m2d s size).newDelayTimes ∧
    Diffuse.UpdateDelayTimes { s with needsUpdate := false }
      = { s with needsUpdate := false } := by
  refine ⟨rfl, rfl, ?_, ?_⟩
  · simp [Diffuse.UpdateDelayTimes, Diffuse.SetSZ, Diffuse.SetRT]
  · simp [Diffuse.UpdateDelayTimes]

/-! ## ReversedBuffer (granular reverse playback) -/

/-- `ReversedBuffer`: circular line, write cursor `i_`, read cursor `o_`,
block size `bs_`, block-remaining counter `b_`, frozen reciprocal `rb_`, and
the last output. -/
structure ReversedBuffer where
  s_ : ℕ
  line : ℕ → ℚ
  i_ : ℕ
  o_ : ℤ
  bs_ : ℤ
  b_ : ℤ
  rb_ : ℚ
  out_ : ℚ

/-- Constructor `ReversedBuffer(s)`: zeroed line (`FloatArray::create`
zero-initializes), input pointer 0, output pointer `s - 1`, block size
`s >> 1` (half the buffer), block pointer `b_ = bs_`, and `rb_ = 1.f / b_` —
computed here and nowhere else.  (`out_` is left uninitialized by the C++
constructor and only zeroed by `Clear()`; the model takes it to be 0, which
no claim depends on.) -/
def ReversedBuffer.create (s : ℕ) : ReversedBuffer where
  s_ := s
  line := fun _ => 0
  i_ := 0
  o_ := (s : ℤ) - 1
  bs_ := ((s / 2 : ℕ) : ℤ)
  b_ := ((s / 2 : ℕ) : ℤ)
  rb_ := 1 / ((s / 2 : ℕ) : ℚ)
  out_ := 0

/-- `SetDelay(d)`: `bs_ = Clamp(d, 1, s_ >> 1)`; `rb_` is not updated. -/
def ReversedBuffer.SetDelay (r : ReversedBuffer) (d : ℤ) : ReversedBuffer :=
  { r with bs_ := min (max d 1) ((r.s_ / 2 : ℕ) : ℤ) }

/-- Gain the code applies in `Process`: `4x(1-x)` with `x = b_ * rb_`. -/
def ReversedBuffer.codeGain (r : ReversedBuffer) : ℚ :=
  4 * ((r.b_ : ℚ) * r.rb_) * (1 - (r.b_ : ℚ) * r.rb_)

/-- C8 claim-side definition, following the claim's words: the tent gain
`4x(1-x)` where `x` is the fraction of the *current* block remaining, i.e.
`x = b_ / bs_` with the window period equal to the block size most recently
set via `SetDelay`. -/
def ReversedBuffer.claimGain (r : ReversedBuffer) : ℚ :=
  4 * ((r.b_ : ℚ) / (r.bs_ : ℚ)) * (1 - (r.b_ : ℚ) / (r.bs_ : ℚ))

/-- `Process(input)`: `line_[i_++] = input` (wrapping `i_`), tent gain from
`x = b_ * rb_`, output `Clamp(line_[o_--] * g, -3, 3)`, decrement the block
counter, on exhaustion reset `o_ = i_ - 1` and `b_ = bs_`, then wrap `o_`
into range. -/
def ReversedBuffer.Process (r : ReversedBuffer) (input : ℚ) : ReversedBuffer × ℚ :=
  let line1 := Function.update r.line r.i_ input
  let i1 := r.i_ + 1
  let i2 := if i1 = r.s_ then 0 else i1
  let x : ℚ := (r.b_ : ℚ) * r.rb_
  let g : ℚ := 4 * x * (1 - x)
  let out := Clamp (line1 r.o_.toNat * g) (-3) 3
  let o1 := r.o_ - 1
  let b1 := r.b_ - 1
  let ob : ℤ × ℤ := if b1 = 0 then ((i2 : ℤ) - 1, r.bs_) else (o1, b1)
  let o2 := whileAddZ r.s_ 0 ob.1
  ({ r with line := line1, i_ := i2, o_ := o2, b_ := ob.2, out_ := out }, out)

/-- C8 scenario for the counterexample: a buffer of 8 samples, `SetDelay(2)`,
then `k` `Process(1)` calls.  After 4 calls the initial (construction-time)
block of 4 is exhausted, so `b_` has been reset to the current block size
`bs_ = 2` — but `rb_` is still `1/4`. -/
def c8run : ℕ → ReversedBuffer
  | 0 => (ReversedBuffer.create 8).SetDelay 2
  | k + 1 => ((c8run k).Process 1).1

theorem whileAddZ_of_not_lt (m : ℕ) (lo p : ℤ) (h : ¬(p < lo)) :
    whileAddZ m lo p = p := by
  rw [whileAddZ]
  exact dif_neg (fun hc => h hc.2)

/-- Line contents of the C8 scenario after `k` writes of 1.0 at indices
`0 .. k-1` into the zeroed buffer. -/
def c8lineFun (k : ℕ) : ℕ → ℚ := fun j => if j < k then 1 else 0

theorem c8lineFun_eval (k j : ℕ) : c8lineFun k j = if j < k then 1 else 0 := rfl

theorem c8line_step (k : ℕ) :
    Function.update (c8lineFun k) k 1 = c8lineFun (k + 1) := by
  funext j
  rcases eq_or_ne j k with h | h
  · simp [h, Function.update_apply, c8lineFun]
  · by_cases hj : j < k
    · simp [Function.update_apply, c8lineFun, h, hj, Nat.lt_succ_of_lt hj]
    · have hj' : ¬(j < k + 1) := by omega
      simp [Function.update_apply, c8lineFun, h, hj, hj']

theorem c8line_zero : (fun _ : ℕ => (0 : ℚ)) = c8lineFun 0 := by
  funext j
  simp [c8lineFun]

/-- C8 counterexample: on the 5th `Process(1)` call the code applies gain
`4x(1-x)` with `x = b_ * rb_ = 2 * (1/4) = 1/2`, i.e. gain 1, returning the
sample 1 written 4 calls earlier; the claim's gain — `x` the fraction of the
current block remaining, `b_/bs_ = 2/2 = 1` — would be 0 and would return 0.
So the gain applied is not the claimed one. -/
theorem c8_counterexample :
    ((c8run 4).Process 1).2 = 1 ∧
    Clamp (Function.update (c8run 4).line (c8run 4).i_ 1 (c8run 4).o_.toNat
      * (c8run 4).claimGain) (-3) 3 = 0 ∧
    ((c8run 4).Process 1).2
      ≠ Clamp (Function.update (c8run 4).line (c8run 4).i_ 1 (c8run 4).o_.toNat
          * (c8run 4).claimGain) (-3) 3 := by
  have h0 : c8run 0 = ⟨8, c8lineFun 0, 0, 7, 2, 4, 1 / 4, 0⟩ := by
    rw [show c8run 0 = (ReversedBuffer.create 8).SetDelay 2 from rfl]
    simp only [ReversedBuffer.create, ReversedBuffer.SetDelay]
    rw [c8line_zero]
    norm_num
  have h1 : c8run 1 = ⟨8, c8lineFun 1, 1, 6, 2, 3, 1 / 4, 0⟩ := by
    rw [show c8run 1 = ((c8run 0).Process 1).1 from rfl, h0]
    simp only [ReversedBuffer.Process, ReversedBuffer.mk.injEq]
    norm_num [whileAddZ_of_not_lt, Clamp, Min, Max, Function.update_apply,
      c8line_step, c8lineFun_eval, show ((7 : ℤ)).toNat = 7 from rfl,
      show ((6 : ℤ)).toNat = 6 from rfl, show ((5 : ℤ)).toNat = 5 from rfl,
      show ((4 : ℤ)).toNat = 4 from rfl, show ((3 : ℤ)).toNat = 3 from rfl]
  have h2 : c8run 2 = ⟨8, c8lineFun 2, 2, 5, 2, 2, 1 / 4, 0⟩ := by
    rw [show c8run 2 = ((c8run 1).Process 1).1 from rfl, h1]
    simp only [ReversedBuffer.Process, ReversedBuffer.mk.injEq]
    norm_num [whileAddZ_of_not_lt, Clamp, Min, Max, Function.update_apply,
      c8line_step, c8lineFun_eval, show ((7 : ℤ)).toNat = 7 from rfl,
      show ((6 : ℤ)).toNat = 6 from rfl, show ((5 : ℤ)).toNat = 5 from rfl,
      show ((4 : ℤ)).toNat = 4 from rfl, show ((3 : ℤ)).toNat = 3 from rfl]
  have h3 : c8run 3 = ⟨8, c8lineFun 3, 3, 4, 2, 1, 1 / 4, 0⟩ := by
    rw [show c8run 3 = ((c8run 2).Process 1).1 from rfl, h2]
    simp only [ReversedBuffer.Process, ReversedBuffer.mk.injEq]
    norm_num [whileAddZ_of_not_lt, Clamp, Min, Max, Function.update_apply,
      c8line_step, c8lineFun_eval, show ((7 : ℤ)).toNat = 7 from rfl,
      show ((6 : ℤ)).toNat = 6 from rfl, show ((5 : ℤ)).toNat = 5 from rfl,
      show ((4 : ℤ)).toNat = 4 from rfl, show ((3 : ℤ)).toNat = 3 from rfl]
  have h4 : c8run 4 = ⟨8, c8lineFun 4, 4, 3, 2, 2, 1 / 4, 0⟩ := by
    rw [show c8run 4 = ((c8run 3).Process 1).1 from rfl, h3]
    simp only [ReversedBuffer.Process, ReversedBuffer.mk.injEq]
    norm_num [whileAddZ_of_not_lt, Clamp, Min, Max, Function.update_apply,
      c8line_step, c8lineFun_eval, show ((7 : ℤ)).toNat = 7 from rfl,
      show ((6 : ℤ)).toNat = 6 from rfl, show ((5 : ℤ)).toNat = 5 from rfl,
      show ((4 : ℤ)).toNat = 4 from rfl, show ((3 : ℤ)).toNat = 3 from rfl]
  have hout : ((c8run 4).Process 1).2 = 1 := by
    rw [h4]
    simp only [ReversedBuffer.Process]
    norm_num [Clamp, Min, Max, Function.update_apply, c8lineFun_eval,
      show ((3 : ℤ)).toNat = 3 from rfl]
  have hclaim : Clamp (Function.update (c8run 4).line (c8run 4).i_ 1 (c8run 4).o_.toNat
      * (c8run 4).claimGain) (-3) 3 = 0 := by
    rw [h4]
    norm_num [ReversedBuffer.claimGain, Clamp, Min, Max, Function.update_apply,
      c8lineFun_eval, show ((3 : ℤ)).toNat = 3 from rfl]
  refine ⟨hout, hclaim, ?_⟩
  rw [hout, hclaim]
  norm_num

/-- C8 (amended): the gain `Process` applies to the sample at the read
cursor is the tent value `4x(1-x)` with `x = b_ * rb_`, where `rb_` is the
reciprocal of half the buffer size, computed once at construction and NOT
updated by `SetDelay` (so the window period is the initial maximum block
size, not the block size most recently set via `SetDelay`); `SetDelay`
clamps the stored block size to `[1, bufferSize/2]`; and when the
block-remaining counter reaches zero the read cursor is reset to just
behind the write cursor and the current block size is re-applied as the new
block length. -/
theorem c8_amended_reversed_buffer (r : ReversedBuffer) (input : ℚ) (d : ℤ) (s : ℕ) :
    (r.Process input).2
      = Clamp (Function.update r.line r.i_ input r.o_.toNat * r.codeGain) (-3) 3 ∧
    (r.Process input).1.rb_ = r.rb_ ∧
    (r.SetDelay d).rb_ = r.rb_ ∧
    (r.SetDelay d).bs_ = min (max d 1) ((r.s_ / 2 : ℕ) : ℤ) ∧
    (ReversedBuffer.create s).rb_ = 1 / ((s / 2 : ℕ) : ℚ) ∧
    (ReversedBuffer.create s).bs_ = ((s / 2 : ℕ) : ℤ) ∧
    (r.b_ - 1 = 0 →
      (r.Process input).1.b_ = r.bs_ ∧
      (r.Process input).1.o_
        = whileAddZ r.s_ 0
            (((if r.i_ + 1 = r.s_ then (0 : ℕ) else r.i_ + 1 : ℕ) : ℤ) - 1)) ∧
    (r.b_ - 1 ≠ 0 →
      (r.Process input).1.b_ = r.b_ - 1 ∧
      (r.Process input).1.o_ = whileAddZ r.s_ 0 (r.o_ - 1)) := by
  refine ⟨rfl, rfl, rfl, rfl, rfl, rfl, ?_, ?_⟩
  · intro hb
    constructor <;> simp [ReversedBuffer.Process, hb]
  · intro hb
    constructor <;> simp [ReversedBuffer.Process, hb]

/-- C8 witness for the amended theorem: a concrete state with one block
sample remaining (`b_ = 1`): the `Process` call resets the block counter to
the stored block size. -/
theorem c8_amended_reversed_buffer_witness :
    ((ReversedBuffer.mk 8 (fun _ => 0) 0 7 4 1 (1 / 4) 0).Process 1).1.b_
      = (ReversedBuffer.mk 8 (fun _ => 0) 0 7 4 1 (1 / 4) 0).bs_ :=
  ((c8_amended_reversed_buffer (ReversedBuffer.mk 8 (fun _ => 0) 0 7 4 1 (1 / 4) 0)
    1 2 8).2.2.2.2.2.2.1 (by decide)).1

end Oneiroi
